import Mathlib

/-!
# Resilience decorators: shallow embedding and verification

Shallow embedding of the resilience decorators of the repository
(`Retry`, `Timeout`, `Throttle`, circuit `Breaker`, and the two
`Debounce` variants), with theorems settling the specification's
claims about them.

Conventions used throughout:

* A wrapped call ("effector" / "circuit") returns `String × Option String`:
  the value together with `none` for success or `some e` for a failure
  carrying message `e` (Go's `(string, error)` pair).
* A cancellation context is represented by its observable error:
  `Option String`, `none` while live, `some e` once ended.
* Timestamps and durations are integer nanosecond counts (`Int`),
  mirroring Go's `time.Time` / `time.Duration`.  Where the Go code
  performs `time.Duration` arithmetic that can overflow the signed
  64-bit representation (the breaker's backoff shift), the wrap-around
  is modelled explicitly with `int64wrap`.
* Each decorator invocation is a pure step function from the decorator's
  closure state to (output, new state, whether the underlying call was
  invoked), translated branch by branch from the Go source.
-/

namespace Decorators

/-- A call outcome: the returned value and `none` (success) or
`some msg` (failure), mirroring Go's `(string, error)`. -/
abbrev Outcome := String × Option String

/-! ## Retry (`stablity-patterns/retry/retry.go`)

```go
func Retry(effector Effector, retries int, delay time.Duration) Effector {
    return func(ctx context.Context) (string, error) {
        for r := 0; ; r++ {
            response, err := effector(ctx)
            if err == nil || r >= retries {
                return response, err
            }
            log.Printf(...)
            select {
            case <-time.After(delay):
            case <-ctx.Done():
                return "", ctx.Err()
            }
        }
    }
}
```

The loop is embedded with `retryAux`, structurally recursive on
`remaining = retries - r` (saturated at 0, so `remaining = 0` iff
`r >= retries`, including every `retries ≤ 0`).  `eff r` is the outcome
of the `r`-th invocation of the effector (0-based); `cancelled r = true`
means the cancellation context ends before the inter-attempt delay
elapses in the `select` following attempt `r`, in which case the wrapper
returns `("", ctxErr)`.  The second component of the result counts how
many times the effector was invoked. -/

/-- One run of the Go `Retry` loop starting at iteration `r` with
`remaining` further retries allowed; returns the `(response, err)` pair
together with the total number of effector invocations performed. -/
def retryAux (eff : Nat → Outcome) (cancelled : Nat → Bool) (ctxErr : String) :
    Nat → Nat → Outcome × Nat
  | r, remaining =>
    match (eff r).2, remaining with
    | none, _ => (((eff r).1, none), r + 1)
    | some e, 0 => (((eff r).1, some e), r + 1)
    | some _, rem + 1 =>
      if cancelled r then (("", some ctxErr), r + 1)
      else retryAux eff cancelled ctxErr (r + 1) rem
termination_by _ remaining => remaining

/-- The `Retry` decorator: `retries` is the Go `int` argument (`r >= retries`
holds from the start whenever `retries ≤ 0`, which `Int.toNat` captures). -/
def Retry (eff : Nat → Outcome) (retries : Int) (cancelled : Nat → Bool)
    (ctxErr : String) : Outcome × Nat :=
  retryAux eff cancelled ctxErr 0 retries.toNat

/-! ## Timeout (`stablity-patterns/throttle/throttle.go`, `Timeout`)

```go
func Timeout(slow SlowFunc) WithContext {
    return func(ctx context.Context, data string) (string, error) {
        resCh := make(chan string, 1)
        errCh := make(chan error, 1)
        go func() {
            res, err := slow(data)
            if err != nil {
                errCh <- fmt.Errorf("slow: %w", err)
                return
            }
            resCh <- res
        }()
        select {
        case err := <-errCh:
            return "", err
        case res := <-resCh:
            return res, nil
        case <-ctx.Done():
            return "", ctx.Err()
        }
    }
}
```

The race between the spawned task and the context is resolved by the
boolean `ctxFirst`: `true` means `ctx.Done()` fires before the slow
call has delivered on either channel. -/

/-- One invocation of the `Timeout`-wrapped call.  `slow` is the wrapped
uncancellable function, `ctxFirst` tells whether the cancellation
context ends before the slow call delivers its outcome, `ctxErr` is the
context's terminal error. -/
def Timeout (slow : String → Outcome) (data : String) (ctxFirst : Bool)
    (ctxErr : String) : Outcome :=
  if ctxFirst then ("", some ctxErr)
  else
    match slow data with
    | (res, none) => (res, none)
    | (_, some e) => ("", some ("slow: " ++ e))

/-! ## Throttle (`stablity-patterns/throttle/throttle.go`, package `throttle`)

```go
return func(ctx context.Context) (string, error) {
    if ctx.Err() != nil {
        return "", ctx.Err()
    }
    once.Do(func() { ... ticker refill goroutine ... })
    if tokens <= 0 {
        return "", errors.New("to many fn calls")
    }
    tokens--
    return effector(ctx)
}
```

The background refill goroutine's tick is modelled by `refill` as a
separate state transition; an invocation step never refills. -/

/-- One invocation of the throttled call: `effRes` is the outcome the
effector would produce if invoked, `ctxErr` the context error observed
at entry (`none` while live), `tokens` the current token count.
Returns (output, new token count, whether the effector was invoked). -/
def ThrottleStep (effRes : Outcome) (ctxErr : Option String) (tokens : Int) :
    Outcome × Int × Bool :=
  match ctxErr with
  | some e => (("", some e), tokens, false)
  | none =>
    if tokens ≤ 0 then (("", some "to many fn calls"), tokens, false)
    else (effRes, tokens - 1, true)

/-- One tick of the refill goroutine: add `refill` tokens, capped at `max`. -/
def refillTick (tokens maxTokens refill : Int) : Int :=
  let t := tokens + refill
  if t > maxTokens then maxTokens else t

/-- A sequence of throttled invocations (no refill tick in between), each
with a live context.  Returns the list of (output, invoked) observations
together with the final token count. -/
def throttleRun (effs : List Outcome) (tokens : Int) :
    List (Outcome × Bool) × Int :=
  match effs with
  | [] => ([], tokens)
  | e :: rest =>
    let (out, tokens', invoked) := ThrottleStep e none tokens
    let (outs, final) := throttleRun rest tokens'
    ((out, invoked) :: outs, final)

/-! ## Circuit breaker (`stablity-patterns/throttle/throttle.go`, `Breaker`)

```go
return func(ctx context.Context) (string, error) {
    m.RLock()
    d := consecutiveFailures - failureThreshold
    if d >= 0 {
        shouldRetryAt := lastAttempt.Add(time.Second * 2 << d)
        if !time.Now().After(shouldRetryAt) {
            m.RUnlock()
            return "", errors.New("service unreachable")
        }
    }
    m.RUnlock()
    response, err := circuit(ctx)
    m.Lock()
    defer m.Unlock()
    lastAttempt = time.Now()
    if err != nil {
        consecutiveFailures++
        return response, err
    }
    consecutiveFailures = 0
    return response, nil
}
```

`time.Second * 2 << d` is `time.Duration` (signed 64-bit) arithmetic:
the value `2·10^9 · 2^d` nanoseconds is taken modulo `2^64` and
re-interpreted in two's complement, which `int64wrap` makes explicit. -/

/-- Reduce an integer modulo `2^64` into the signed 64-bit range
`[-2^63, 2^63)`, as Go's `int64` (`time.Duration`) arithmetic does. -/
def int64wrap (n : Int) : Int :=
  let m := n % (2 ^ 64)
  if m < 2 ^ 63 then m else m - 2 ^ 64

/-- The Go expression `time.Second * 2 << d` (for `d ≥ 0`, given as a
`Nat`): `2^(d+1)` seconds in nanoseconds, wrapped to signed 64 bits. -/
def backoffNs (d : Nat) : Int :=
  int64wrap (2000000000 * 2 ^ d)

/-- The breaker's closure state: the consecutive-failure counter and the
timestamp (ns) of the most recent attempt. -/
structure BreakerState where
  consecutiveFailures : Nat
  lastAttempt : Int
  deriving Repr, DecidableEq

/-- One invocation of the breaker-wrapped call.  `circuitRes` is the
outcome the circuit would produce if invoked, `failureThreshold` the
threshold parameter, `tCheck` the time `time.Now()` reads at the gate
check, `tDone` the time it reads after the circuit call returns.
Returns (output, new state, whether the circuit was invoked). -/
def BreakerStep (circuitRes : Outcome) (failureThreshold : Int)
    (st : BreakerState) (tCheck tDone : Int) :
    Outcome × BreakerState × Bool :=
  if 0 ≤ (st.consecutiveFailures : Int) - failureThreshold ∧
      tCheck ≤ st.lastAttempt +
        backoffNs ((st.consecutiveFailures : Int) - failureThreshold).toNat
  then (("", some "service unreachable"), st, false)
  else
    match circuitRes with
    | (resp, some e) =>
      ((resp, some e), ⟨st.consecutiveFailures + 1, tDone⟩, true)
    | (resp, none) => ((resp, none), ⟨0, tDone⟩, true)

/-! ## Debounce, cache variant (`DebounceVersion1`, `src/unnamed/part_000`)

```go
return func(ctx context.Context) (string, error) {
    m.Lock()
    defer func() {
        threshold = time.Now().Add(d)
        m.Unlock()
    }()
    if time.Now().Before(threshold) {
        return result, err
    }
    result, err = circuit(ctx)
    return result, err
}
```

Note the deferred assignment runs on *every* invocation, cache hits
included; `tEnd` is the time `time.Now()` reads inside the deferred
function (after the circuit call, when one was made). -/

/-- The cache-variant debounce state: the earliest next execution time
and the cached outcome. -/
structure Debounce1State where
  threshold : Int
  result : String
  err : Option String
  deriving Repr, DecidableEq

/-- One invocation of the cache-variant debounced call.  `circuitRes` is
the outcome the circuit would produce if invoked, `d` the cooldown,
`tNow` the time read at the guard, `tEnd` the time read in the deferred
update.  Returns (output, new state, whether the circuit was invoked). -/
def Debounce1Step (circuitRes : Outcome) (d : Int) (st : Debounce1State)
    (tNow tEnd : Int) : Outcome × Debounce1State × Bool :=
  if tNow < st.threshold then
    ((st.result, st.err), ⟨tEnd + d, st.result, st.err⟩, false)
  else
    ((circuitRes.1, circuitRes.2), ⟨tEnd + d, circuitRes.1, circuitRes.2⟩, true)

/-! ## Debounce, deferred-execution variant (`DebounceVersion2`,
`src/unnamed/part_001`)

```go
return func(ctx context.Context) (string, error) {
    m.Lock()
    defer m.Unlock()
    threshold = time.Now().Add(d)
    once.Do(func() {
        ticker = time.NewTicker(time.Millisecond * 100)
        go func() { m.Lock(); ticker.Stop(); once = sync.Once{}; m.Unlock() }()
        for {
            select {
            case <-ticker.C:
                m.Lock()
                if time.Now().After(threshold) {
                    result, err = circuit(ctx)
                    m.Unlock()
                    return
                }
                m.Unlock()
            case <-ctx.Done():
                m.Lock()
                result, err = "", ctx.Err()
                m.Unlock()
                return
            }
        }
    })
    return result, err
}
```

The polling `for`/`select` loop is the body of `once.Do`, so the very
first invocation executes it in the foreground while that same
invocation still holds the mutex `m` (its `m.Unlock()` is deferred to
after `once.Do` returns).  Every `select` arm begins with `m.Lock()`,
and Go's `sync.Mutex` is not reentrant, so each arm blocks forever.

Control flow of the first invocation as a step relation: the mutex is
held from entry; the loop can leave `inSelect` only through an arm, and
every arm must first acquire the mutex, which is released only after the
loop (and hence `once.Do`) has returned. -/

/-- Program points of the first invocation of `DebounceVersion2`. -/
inductive D2Point where
  /-- Waiting in the `select` inside the `once.Do` polling loop. -/
  | inSelect : D2Point
  /-- A `select` arm fired and is blocked in its leading `m.Lock()`. -/
  | blockedOnLock : D2Point
  /-- The invocation returned to its caller with this output. -/
  | returned : Outcome → D2Point
  deriving Repr, DecidableEq

/-- Configuration of the first invocation: the current program point and
whether the invoker still holds the mutex `m` (released only by the
deferred `m.Unlock()` that runs after `once.Do` returns). -/
structure D2Config where
  point : D2Point
  mutexHeld : Bool
  deriving Repr, DecidableEq

/-- Scheduler events that can wake the first invocation's polling loop. -/
inductive D2Event where
  /-- The 100&#8202;ms ticker fires; `past` tells whether `time.Now()` is
  after the stored `threshold` at that moment. -/
  | tick : Bool → D2Event
  /-- The cancellation context ends. -/
  | ctxDone : D2Event
  deriving Repr, DecidableEq

/-- The configuration at the start of the first invocation's polling
loop: the invoker acquired `m` on entry and, inside `once.Do`, sits in
the `select`. -/
def d2Init : D2Config := ⟨.inSelect, true⟩

/-- One scheduler event delivered to the first invocation.  Each
`select` arm begins with `m.Lock()`: with the mutex held it blocks
there; were the mutex free, the arm would run its body (the tick arm
returns the circuit's outcome once past the threshold, the `ctx.Done()`
arm returns `("", ctxErr)`, and a return lets the deferred `m.Unlock()`
run).  The invocation itself never releases the mutex before the loop
returns. -/
def d2Step (circuitRes : Outcome) (ctxErr : String) (c : D2Config)
    (e : D2Event) : D2Config :=
  match c.point with
  | .inSelect =>
    if c.mutexHeld then ⟨.blockedOnLock, c.mutexHeld⟩
    else
      match e with
      | .tick true => ⟨.returned circuitRes, false⟩
      | .tick false => ⟨.inSelect, false⟩
      | .ctxDone => ⟨.returned ("", some ctxErr), false⟩
  | .blockedOnLock => c
  | .returned out => ⟨.returned out, false⟩

/-- Deliver a sequence of scheduler events to the first invocation. -/
def d2Run (circuitRes : Outcome) (ctxErr : String)
    (events : List D2Event) : D2Config :=
  events.foldl (d2Step circuitRes ctxErr) d2Init

/-! ## Theorems -/

/-- Helper: when every attempt from `r` through `r + rem` fails and no
inter-attempt wait is cancelled, the loop runs all the attempts and
returns the last attempt's own outcome. -/
theorem retryAux_all_fail (eff : Nat → Outcome) (cancelled : Nat → Bool)
    (ctxErr : String) (rem : Nat) :
    ∀ r : Nat,
      (∀ i, r ≤ i → i ≤ r + rem → (eff i).2 ≠ none) →
      (∀ i, r ≤ i → i < r + rem → cancelled i = false) →
      retryAux eff cancelled ctxErr r rem = (eff (r + rem), r + rem + 1) := by
  induction rem with
  | zero =>
    intro r hf _
    rcases h : (eff r).2 with _ | e
    · exact absurd h (hf r le_rfl (Nat.le_add_right r 0))
    · simp only [retryAux.eq_def, h, Nat.add_zero]
      rw [← h]
  | succ rem ih =>
    intro r hf hc
    rcases h : (eff r).2 with _ | e
    · exact absurd h (hf r le_rfl (by omega))
    · have hcr : cancelled r = false := hc r le_rfl (by omega)
      have hstep :
          retryAux eff cancelled ctxErr r (rem + 1) =
            retryAux eff cancelled ctxErr (r + 1) rem := by
        conv_lhs => rw [retryAux.eq_def]
        simp [h, hcr]
      rw [hstep]
      have hab : r + 1 + rem = r + (rem + 1) := by omega
      rw [← hab]
      exact ih (r + 1) (fun i h1 h2 => hf i (by omega) (by omega))
        (fun i h1 h2 => hc i (by omega) (by omega))

/-- Helper: when attempts `r, …, r + j` all fail, the waits before
attempt `r + j` are not cancelled, but the wait after attempt `r + j`
is (and `j` further retries are still allowed), the loop returns the
context's terminal error after `r + j + 1` invocations. -/
theorem retryAux_cancelled (eff : Nat → Outcome) (cancelled : Nat → Bool)
    (ctxErr : String) (j : Nat) :
    ∀ (rem r : Nat), j < rem →
      (∀ i, r ≤ i → i ≤ r + j → (eff i).2 ≠ none) →
      (∀ i, r ≤ i → i < r + j → cancelled i = false) →
      cancelled (r + j) = true →
      retryAux eff cancelled ctxErr r rem = (("", some ctxErr), r + j + 1) := by
  induction j with
  | zero =>
    intro rem r hrem hf _ hck
    obtain ⟨rem', rfl⟩ : ∃ rem', rem = rem' + 1 := ⟨rem - 1, by omega⟩
    rcases h : (eff r).2 with _ | e
    · exact absurd h (hf r le_rfl (Nat.le_add_right r 0))
    · have hcr : cancelled r = true := by simpa using hck
      conv_lhs => rw [retryAux.eq_def]
      simp [h, hcr]
  | succ j ih =>
    intro rem r hrem hf hc hck
    obtain ⟨rem', rfl⟩ : ∃ rem', rem = rem' + 1 := ⟨rem - 1, by omega⟩
    rcases h : (eff r).2 with _ | e
    · exact absurd h (hf r le_rfl (by omega))
    · have hcr : cancelled r = false := hc r le_rfl (by omega)
      have hstep :
          retryAux eff cancelled ctxErr r (rem' + 1) =
            retryAux eff cancelled ctxErr (r + 1) rem' := by
        conv_lhs => rw [retryAux.eq_def]
        simp [h, hcr]
      rw [hstep]
      have hab : r + 1 + j = r + (j + 1) := by omega
      rw [show r + (j + 1) + 1 = r + 1 + j + 1 by omega]
      exact ih rem' (r + 1) (by omega)
        (fun i h1 h2 => hf i (by omega) (by omega))
        (fun i h1 h2 => hc i (by omega) (by omega))
        (by rw [hab]; exact hck)

/-- C4: for every `maxRetries = n ≥ 0`, a call that fails on every
attempt (with no cancellation during the waits) is invoked exactly
`n + 1` times by `Retry`, and the wrapper returns the last attempt's own
outcome — its own error, not a synthesized one. -/
theorem retry_exhausts_attempts (eff : Nat → Outcome) (cancelled : Nat → Bool)
    (ctxErr : String) (n : Nat)
    (hf : ∀ i, i ≤ n → (eff i).2 ≠ none)
    (hc : ∀ i, i < n → cancelled i = false) :
    Retry eff (n : Int) cancelled ctxErr = (eff n, n + 1) := by
  unfold Retry
  have ht : ((n : Int)).toNat = n := Int.toNat_natCast n
  rw [ht]
  have := retryAux_all_fail eff cancelled ctxErr n 0
    (fun i h1 h2 => hf i (by omega)) (fun i h1 h2 => hc i (by omega))
  simpa using this

/-- Witness for C4: with `maxRetries = 2` and a call failing with
`"boom"` on every attempt, `Retry` makes 3 attempts and returns the
call's own failure. -/
theorem retry_exhausts_attempts_witness :
    Retry (fun _ => ("v", some "boom")) ((2 : Nat) : Int) (fun _ => false)
      "ctx" = (("v", some "boom"), 3) :=
  retry_exhausts_attempts (fun _ => ("v", some "boom")) (fun _ => false)
    "ctx" 2 (fun i _ => by simp) (fun i _ => rfl)

/-- C7: if attempt `k` fails with further retries allowed
(`k < retries`) and the cancellation context ends during the
inter-attempt wait that follows, `Retry` returns the context's terminal
error (not the call's last error) and performs no further attempts. -/
theorem retry_cancelled_mid_wait (eff : Nat → Outcome)
    (cancelled : Nat → Bool) (ctxErr : String) (retries : Int) (k : Nat)
    (hk : (k : Int) < retries)
    (hf : ∀ i, i ≤ k → (eff i).2 ≠ none)
    (hc : ∀ i, i < k → cancelled i = false)
    (hck : cancelled k = true) :
    Retry eff retries cancelled ctxErr = (("", some ctxErr), k + 1) := by
  unfold Retry
  have hlt : k < retries.toNat := by omega
  have := retryAux_cancelled eff cancelled ctxErr k retries.toNat 0 hlt
    (fun i h1 h2 => hf i (by omega)) (fun i h1 h2 => hc i (by omega))
    (by simpa using hck)
  simpa using this

/-- Witness for C7: with `retries = 2`, a first attempt failing with
`"f"` and the context ending during the first wait, `Retry` returns the
context error after a single attempt. -/
theorem retry_cancelled_mid_wait_witness :
    Retry (fun _ => ("v", some "f")) (2 : Int) (fun _ => true) "ctx" =
      (("", some "ctx"), 1) :=
  retry_cancelled_mid_wait (fun _ => ("v", some "f")) (fun _ => true)
    "ctx" 2 0 (by decide) (fun i _ => by simp)
    (fun i hi => absurd hi (Nat.not_lt_zero i)) rfl

/-- C10: for every `retries ≤ 0` (negative values included), `Retry`
invokes the call exactly once and returns that single attempt's value
and error verbatim, success or failure. -/
theorem retry_nonpositive (eff : Nat → Outcome) (cancelled : Nat → Bool)
    (ctxErr : String) (retries : Int) (h : retries ≤ 0) :
    Retry eff retries cancelled ctxErr = (eff 0, 1) := by
  unfold Retry
  rw [Int.toNat_of_nonpos h]
  rcases h0 : (eff 0).2 with _ | e <;>
    · simp only [retryAux.eq_def, h0]
      rw [← h0]

/-- Witness for C10: with `retries = -1` and a failing call, `Retry`
performs one attempt and returns its outcome verbatim. -/
theorem retry_nonpositive_witness :
    Retry (fun _ => ("v", some "boom")) (-1 : Int) (fun _ => false) "ctx" =
      (("v", some "boom"), 1) :=
  retry_nonpositive (fun _ => ("v", some "boom")) (fun _ => false) "ctx"
    (-1) (by decide)

/-- C6: with `max = 3` tokens and no refill tick in between, five
sequential invocations (live context) invoke the effector exactly three
times, each propagating the effector's outcome unchanged and consuming
one token, and the last two return the rate-limit error without
invoking the effector. -/
theorem throttle_five_calls (r1 r2 r3 r4 r5 : Outcome) :
    throttleRun [r1, r2, r3, r4, r5] 3 =
      ([(r1, true), (r2, true), (r3, true),
        (("", some "to many fn calls"), false),
        (("", some "to many fn calls"), false)], 0) := rfl

/-- C8: an invocation whose context is already cancelled at entry
returns the context's error immediately, does not invoke the effector,
and leaves the token count unchanged. -/
theorem throttle_cancelled_context (effRes : Outcome) (e : String)
    (tokens : Int) :
    ThrottleStep effRes (some e) tokens = (("", some e), tokens, false) :=
  rfl

/-- Counterexample to C2 as stated: a call that completes (before the
deadline) with value `"partial"` and failure `"boom"` comes back from
the `Timeout` wrapper as `("", "slow: boom")` — the error is wrapped
with a `"slow: "` prefix and the value is dropped, not returned
verbatim. -/
theorem timeout_wraps_failure_counterexample :
    Timeout (fun _ => ("partial", some "boom")) "x" false "ctx" =
      ("", some "slow: boom")
  ∧ ("slow: boom" : String) ≠ "boom"
  ∧ ("" : String) ≠ "partial" := by decide

/-- C2 (amended): for a call that completes before the deadline and
before cancellation, `Timeout` returns a success value with nil error
unaltered; a failure is returned with an empty value and the error
wrapped with the `"slow: "` prefix (the original message preserved as
the suffix), not verbatim. -/
theorem timeout_fast_path (slow : String → Outcome) (data : String)
    (ctxErr : String) :
    ((slow data).2 = none → Timeout slow data false ctxErr = slow data)
  ∧ ∀ e, (slow data).2 = some e →
      Timeout slow data false ctxErr = ("", some ("slow: " ++ e)) := by
  constructor
  · intro h
    rcases hs : slow data with ⟨v, err⟩
    rw [hs] at h
    subst h
    simp [Timeout, hs]
  · intro e h
    rcases hs : slow data with ⟨v, err⟩
    rw [hs] at h
    subst h
    simp [Timeout, hs]

/-- Witness for C2 (amended): a fast success passes through unchanged;
a fast failure `"b"` comes back wrapped as `"slow: b"`. -/
theorem timeout_fast_path_witness :
    Timeout (fun _ => ("v", none)) "d" false "c" = ("v", none)
  ∧ Timeout (fun _ => ("w", some "b")) "d" false "c" =
      ("", some ("slow: " ++ "b")) :=
  ⟨(timeout_fast_path (fun _ => ("v", none)) "d" "c").1 rfl,
   (timeout_fast_path (fun _ => ("w", some "b")) "d" "c").2 "b" rfl⟩

/-- Counterexample to C3 as stated: a cache-hit invocation
(`now = 10 < nextAllowedTime = 100`, cooldown `100`) returns the cached
pair without invoking the circuit, but the deferred update still moves
`nextAllowedTime` from `100` to `110` — it is not left unchanged. -/
theorem debounce1_threshold_update_counterexample :
    ((10 : Int) < 100)
  ∧ Debounce1Step ("z", some "zz") 100 ⟨100, "a", none⟩ 10 10 =
      (("a", none), ⟨110, "a", none⟩, false)
  ∧ ((110 : Int) ≠ 100) := by decide

/-- C3 (amended): an invocation at `now < nextAllowedTime` returns the
cached value/error pair and does not invoke the circuit, but the
deferred update sets `nextAllowedTime = now + cooldown` on every
invocation, cache hits included; when the cooldown has expired the
circuit is invoked, its outcome is cached, and `nextAllowedTime`
becomes completion time + cooldown. -/
theorem debounce1_cache_hit (circuitRes : Outcome) (d : Int)
    (st : Debounce1State) (tNow tEnd : Int) :
    (tNow < st.threshold →
      Debounce1Step circuitRes d st tNow tEnd =
        ((st.result, st.err), ⟨tEnd + d, st.result, st.err⟩, false))
  ∧ (st.threshold ≤ tNow →
      Debounce1Step circuitRes d st tNow tEnd =
        (circuitRes, ⟨tEnd + d, circuitRes.1, circuitRes.2⟩, true)) := by
  constructor
  · intro h
    simp [Debounce1Step, h]
  · intro h
    simp [Debounce1Step, not_lt.mpr h]

/-- Witness for C3 (amended): a cache hit returns the cached pair and
moves the threshold; an expired-cooldown call invokes the circuit and
caches its outcome. -/
theorem debounce1_cache_hit_witness :
    Debounce1Step ("z", some "zz") 100 ⟨100, "a", none⟩ 10 10 =
      (("a", none), ⟨110, "a", none⟩, false)
  ∧ Debounce1Step ("z", some "zz") 100 ⟨100, "a", none⟩ 150 153 =
      (("z", some "zz"), ⟨253, "z", some "zz"⟩, true) :=
  ⟨(debounce1_cache_hit ("z", some "zz") 100 ⟨100, "a", none⟩ 10 10).1
      (by decide),
   (debounce1_cache_hit ("z", some "zz") 100 ⟨100, "a", none⟩ 150 153).2
      (by decide)⟩

/-- Helper: for `k ≤ 32` the Go duration `time.Second * 2 << k` does
not overflow `int64`, so it equals `2^(k+1)` seconds in nanoseconds. -/
theorem backoffNs_of_le (k : Nat) (hk : k ≤ 32) :
    backoffNs k = 2 ^ (k + 1) * 1000000000 := by
  have hle : (2 : Int) ^ k ≤ 2 ^ 32 := pow_le_pow_right₀ (by norm_num) hk
  have h1 : (0 : Int) ≤ 2000000000 * 2 ^ k := by positivity
  have h2 : (2000000000 : Int) * 2 ^ k < 2 ^ 63 := by nlinarith
  have hmod : (2000000000 * 2 ^ k : Int) % 2 ^ 64 = 2000000000 * 2 ^ k :=
    Int.emod_eq_of_lt h1 (by nlinarith)
  simp only [backoffNs, int64wrap, hmod]
  rw [if_pos h2]
  ring

/-- Counterexample to C1 as stated: with `threshold = 3`,
`consecutiveFailures = 36` (`d = 33`), `lastAttempt = 0` and
`now = 0 ≤ lastAttempt + 2^(d+1)` seconds, the claim demands a
"service unreachable" rejection, but the Go duration
`time.Second * 2 << 33` overflows `int64` to a negative value, so the
breaker invokes the underlying call. -/
theorem breaker_overflow_counterexample :
    ((0 : Int) ≤ ((36 : Nat) : Int) - 3)
  ∧ ((0 : Int) ≤ 0 + 2 ^ (33 + 1) * 1000000000)
  ∧ BreakerStep ("", some "down") 3 ⟨36, 0⟩ 0 0 =
      (("", some "down"), ⟨37, 0⟩, true) := by decide

/-- C1 (amended): an invocation is rejected with "service unreachable"
(leaving the state unchanged, without invoking the call) exactly when
`d = consecutiveFailures - threshold ≥ 0` and the current time is not
after `lastAttempt` plus the `int64`-wrapped duration
`2^(d+1)` seconds; otherwise the underlying call is invoked.  For every
`d ≤ 32` the wrapped duration coincides with the claim's
`2^(d+1)` seconds (2s, 4s, 8s, …). -/
theorem breaker_gate (circuitRes : Outcome) (threshold : Int)
    (st : BreakerState) (tCheck tDone : Int) :
    (BreakerStep circuitRes threshold st tCheck tDone =
        (("", some "service unreachable"), st, false)
      ↔ 0 ≤ (st.consecutiveFailures : Int) - threshold ∧
        tCheck ≤ st.lastAttempt +
          backoffNs ((st.consecutiveFailures : Int) - threshold).toNat)
  ∧ ((BreakerStep circuitRes threshold st tCheck tDone).2.2 = true
      ↔ ¬(0 ≤ (st.consecutiveFailures : Int) - threshold ∧
        tCheck ≤ st.lastAttempt +
          backoffNs ((st.consecutiveFailures : Int) - threshold).toNat))
  ∧ (∀ k : Nat, k ≤ 32 → backoffNs k = 2 ^ (k + 1) * 1000000000) := by
  refine ⟨?_, ?_, fun k hk => backoffNs_of_le k hk⟩ <;>
  · unfold BreakerStep
    split
    · rename_i hcond
      simp [hcond]
    · rename_i hcond
      rcases circuitRes with ⟨resp, _ | e⟩ <;>
        simp [hcond] <;>
        (intro h1; by_contra h2; exact hcond ⟨by omega, by omega⟩)

/-- Witness for C1 (amended): at the threshold with `now` inside the 2s
window the call is rejected and the state untouched; below the
threshold it is invoked; and the unwrapped backoff at `d = 0` is 2s. -/
theorem breaker_gate_witness :
    BreakerStep ("ok", none) 3 ⟨3, 0⟩ 0 5 =
      (("", some "service unreachable"), ⟨3, 0⟩, false)
  ∧ (BreakerStep ("ok", none) 3 ⟨0, 0⟩ 0 5).2.2 = true
  ∧ backoffNs 0 = 2 ^ (0 + 1) * 1000000000 :=
  ⟨(breaker_gate ("ok", none) 3 ⟨3, 0⟩ 0 5).1.mpr (by decide),
   (breaker_gate ("ok", none) 3 ⟨0, 0⟩ 0 5).2.1.mpr (by decide),
   (breaker_gate ("ok", none) 3 ⟨3, 0⟩ 0 5).2.2 0 (by decide)⟩

/-- Counterexample to C9 as stated: with `threshold = 0` a successful
trial call (admitted 3s after the previous attempt) resets
`consecutiveFailures` to 0, yet the immediately following invocation is
still short-circuited, because `0 - 0 ≥ 0` re-opens a 2s backoff window
from the trial's own completion time. -/
theorem breaker_zero_threshold_counterexample :
    BreakerStep ("ok", none) 0 ⟨0, 0⟩ 3000000000 3000000000 =
      (("ok", none), ⟨0, 3000000000⟩, true)
  ∧ BreakerStep ("ok", none) 0 ⟨0, 3000000000⟩ 3000000000 3000000000 =
      (("", some "service unreachable"), ⟨0, 3000000000⟩, false) := by
  decide

/-- C9 (amended): an invoked successful call resets
`consecutiveFailures` to 0 (recording the completion time), an invoked
failing call increments it by 1 and returns that failure; and for every
positive threshold, the invocation immediately following a successful
trial is never short-circuited, even inside what would have been the
backoff window. -/
theorem breaker_reset_and_count (threshold : Int) (st : BreakerState)
    (tCheck tDone : Int) (resp : String) :
    ((BreakerStep (resp, none) threshold st tCheck tDone).2.2 = true →
      BreakerStep (resp, none) threshold st tCheck tDone =
        ((resp, none), ⟨0, tDone⟩, true))
  ∧ (∀ e : String,
      (BreakerStep (resp, some e) threshold st tCheck tDone).2.2 = true →
      BreakerStep (resp, some e) threshold st tCheck tDone =
        ((resp, some e), ⟨st.consecutiveFailures + 1, tDone⟩, true))
  ∧ (0 < threshold → ∀ (c2 : Outcome) (t tCheck2 tDone2 : Int),
      (BreakerStep c2 threshold ⟨0, t⟩ tCheck2 tDone2).2.2 = true) := by
  refine ⟨?_, ?_, ?_⟩
  · intro hinv
    unfold BreakerStep at hinv ⊢
    revert hinv
    split
    · intro hinv
      exact absurd hinv (by simp)
    · intro _
      rfl
  · intro e hinv
    unfold BreakerStep at hinv ⊢
    revert hinv
    split
    · intro hinv
      exact absurd hinv (by simp)
    · intro _
      rfl
  · intro hth c2 t tCheck2 tDone2
    unfold BreakerStep
    split
    · rename_i hcond
      exfalso
      have h1 := hcond.1
      simp at h1
      omega
    · rcases c2 with ⟨v, _ | e⟩ <;> rfl

/-- Witness for C9 (amended): a successful call resets the counter, a
failing call increments it and returns its failure, and the call right
after a successful trial (threshold 3) is admitted. -/
theorem breaker_reset_and_count_witness :
    BreakerStep ("ok", none) 3 ⟨5, 0⟩ 100000000000 7 =
      (("ok", none), ⟨0, 7⟩, true)
  ∧ BreakerStep ("x", some "f") 3 ⟨1, 0⟩ 100000000000 7 =
      (("x", some "f"), ⟨2, 7⟩, true)
  ∧ (BreakerStep ("y", none) 3 ⟨0, 50⟩ 50 60).2.2 = true :=
  ⟨(breaker_reset_and_count 3 ⟨5, 0⟩ 100000000000 7 "ok").1 (by decide),
   (breaker_reset_and_count 3 ⟨1, 0⟩ 100000000000 7 "x").2.1 "f" (by decide),
   (breaker_reset_and_count 3 ⟨0, 0⟩ 0 0 "z").2.2 (by decide)
     ("y", none) 50 50 60⟩

/-- Helper: the invariant of `DebounceVersion2`'s first invocation — the
invoker keeps holding the mutex and the polling loop stays in its
`select` or blocked on a `select` arm's `m.Lock()`, under any event
sequence. -/
theorem d2_foldl_inv (circuitRes : Outcome) (ctxErr : String)
    (events : List D2Event) :
    ∀ c : D2Config, c.mutexHeld = true →
      (c.point = D2Point.inSelect ∨ c.point = D2Point.blockedOnLock) →
      (events.foldl (d2Step circuitRes ctxErr) c).mutexHeld = true ∧
      ((events.foldl (d2Step circuitRes ctxErr) c).point = D2Point.inSelect ∨
       (events.foldl (d2Step circuitRes ctxErr) c).point =
         D2Point.blockedOnLock) := by
  induction events with
  | nil =>
    intro c h1 h2
    exact ⟨h1, h2⟩
  | cons e rest ih =>
    intro c h1 h2
    simp only [List.foldl_cons]
    refine ih _ ?_ ?_
    · rcases h2 with h | h <;> simp [d2Step, h, h1]
    · rcases h2 with h | h <;> simp [d2Step, h, h1]

/-- C5: contrary to the claim (and the spec's intent), the first
invocation of the deferred-execution debounce never returns: the
polling loop runs in the foreground inside `once.Do` while the invoker
holds the mutex, and every `select` arm blocks on re-acquiring that
mutex, whatever sequence of ticker ticks or context cancellation
arrives.  In particular no invocation ever yields the cached pair and
the circuit is never executed. -/
theorem debounce2_first_call_never_returns (circuitRes : Outcome)
    (ctxErr : String) (events : List D2Event) :
    (d2Run circuitRes ctxErr events).mutexHeld = true ∧
    ((d2Run circuitRes ctxErr events).point = D2Point.inSelect ∨
     (d2Run circuitRes ctxErr events).point = D2Point.blockedOnLock) :=
  d2_foldl_inv circuitRes ctxErr events d2Init rfl (Or.inl rfl)

end Decorators
